import Mathlib

/-!
Verification of the openapi-catalog discovery-and-ingestion pipeline.

The definitions below are a shallow embedding of the JavaScript source:

* `src/pipeline/converter.js` — `ConversionPipeline.downloadOpenAPISpec`
  (the Spec Normalizer), `convertToBruno`, `generateDocs`,
  `convertAndGenerateDocs`;
* `src/scraper/github-scraper.js` (first revision, with star ranges) —
  `GitHubScraper.searchOpenAPIFiles` and its helpers;
* `src/api/server.js` — `CatalogServer.runScrape` (the batch runner).

External collaborators (Node's `JSON.parse`/`JSON.stringify`, `js-yaml`'s
`load`, the GitHub API, the filesystem, child processes) are modelled as
parameters: structures of functions supplied by the environment.
-/

namespace OpenapiCatalog

/-- JavaScript values as produced by `JSON.parse` / `yaml.load`.
`null` also stands for `undefined` (both are falsy and have no
`openapi`/`swagger` property). -/
inductive JsonValue where
  | null : JsonValue
  | bool (b : Bool) : JsonValue
  | num (n : Int) : JsonValue
  | str (s : String) : JsonValue
  | arr (elems : List JsonValue) : JsonValue
  | obj (fields : List (String × JsonValue)) : JsonValue
deriving Repr

/-- JavaScript truthiness: `null`/`undefined`, `false`, `0` and `""` are
falsy; every object and array is truthy. -/
def jsTruthy : JsonValue → Bool
  | .null => false
  | .bool b => b
  | .num n => n != 0
  | .str s => s != ""
  | .arr _ => true
  | .obj _ => true

/-- JavaScript property access `v.k`: object lookup, `undefined`
(modelled as `null`) on everything else. -/
def getField : JsonValue → String → JsonValue
  | .obj fields, k =>
      match fields.lookup k with
      | some v => v
      | none => .null
  | _, _ => .null

/-- The check `parsed.openapi || parsed.swagger` — the version-discriminator test
used in `downloadOpenAPISpec` (converter.js lines 80 and 89). -/
def hasVersionField (v : JsonValue) : Bool :=
  jsTruthy (getField v "openapi") || jsTruthy (getField v "swagger")

/-- The external parsing/serialization collaborators used by
`downloadOpenAPISpec`: Node's `JSON.parse` (`none` = parse throws),
js-yaml's `load` (`none` = parse throws; a successful load of an empty
document is `some .null`), and `JSON.stringify(v, null, 2)`. -/
structure Parsers where
  jsonParse : String → Option JsonValue
  yamlLoad : String → Option JsonValue
  stringify : JsonValue → String

/-- The `catch (jsonError)` block of converter.js lines 85–101: try
`yaml.load`; if the loaded value is truthy and has a version field,
re-serialize it to JSON and persist that; every other outcome (YAML
throw, falsy value, missing field) ends in the `catch (yamlError)`
re-throw of line 99. Returns the final persisted file content on
success. -/
def yamlFallback (P : Parsers) (content : String) : Except String String :=
  match P.yamlLoad content with
  | some yamlContent =>
      if jsTruthy yamlContent && hasVersionField yamlContent then
        .ok (P.stringify yamlContent)
      else
        .error "Downloaded file is not a valid OpenAPI spec (not JSON or YAML)"
  | none => .error "Downloaded file is not a valid OpenAPI spec (not JSON or YAML)"

/-- The validation step of `downloadOpenAPISpec` (converter.js lines
73–107). JSON is parsed first; the `throw` on the missing-field branch
of line 83 lands in the same `catch (jsonError)` as a parse failure, so
the YAML fallback also runs when JSON parsed but the version field is
absent. On the plain-JSON success path the downloaded content is kept
as is; only the YAML path rewrites the file. -/
def normalizeSpec (P : Parsers) (content : String) : Except String String :=
  match P.jsonParse content with
  | some parsed =>
      if hasVersionField parsed then .ok content
      else yamlFallback P content
  | none => yamlFallback P content

/-- Whether control reaches the `catch (jsonError)` block, i.e. whether
the YAML parser is invoked on this content: on a JSON parse throw, and
also on a JSON parse success whose value lacks both version fields
(the line 83 `throw` is raised inside the same `try`). -/
def yamlAttempted (P : Parsers) (content : String) : Bool :=
  match P.jsonParse content with
  | some parsed => !hasVersionField parsed
  | none => true

/-! ## Conversion Pipeline (`src/pipeline/converter.js`) -/

/-- The directory configuration fixed in the `ConversionPipeline`
constructor. -/
structure PipelineConfig where
  openapiDir : String
  collectionsDir : String
  docsDir : String

/-- Models `path.join(dir, name)` for the shapes used in converter.js. -/
def joinPath (dir name : String) : String := dir ++ "/" ++ name

/-- The effectful collaborators of the pipeline: the filesystem
(`fs.mkdir`), `curl` (yielding the downloaded file content, or the exec
failure message), and the two `execAsync` child processes
(`openapi-to-bruno` and `bruno-docs generate`), keyed by the paths they
are invoked with. -/
structure PipelineEnv where
  parsers : Parsers
  mkdir : String → Except String Unit
  curlFetch : String → Except String String
  execConvert : String → String → Except String Unit
  execDocs : String → String → Except String Unit

/-- A pipeline stage returns its thrown error or its value, together
with the list of artifact paths it has written so far (writes survive a
later throw: nothing in the source ever deletes them). -/
abbrev StageResult (α : Type) := Except String α × List String

/-- Stage `downloadOpenAPISpec` (converter.js lines 62–108): mkdir the
openapi directory, download with curl (curl writes the file), then run
the §4.5 validation; the YAML branch rewrites the same file with the
re-serialized JSON. Returns the spec file path. The downloaded file is
an artifact as soon as curl succeeds, even if validation then throws. -/
def downloadOpenAPISpec (cfg : PipelineConfig) (env : PipelineEnv)
    (id url : String) : StageResult String :=
  let filepath := joinPath cfg.openapiDir (id ++ ".json")
  match env.mkdir cfg.openapiDir with
  | .error e => (.error e, [])
  | .ok _ =>
    match env.curlFetch url with
    | .error e => (.error e, [])
    | .ok content =>
      match normalizeSpec env.parsers content with
      | .error e => (.error e, [filepath])
      | .ok _ => (.ok filepath, [filepath])

/-- Stage `convertToBruno` (converter.js lines 113–131): mkdir the
collections directory (a throw here propagates uncaught), then run the
converter tool; an exec failure is re-thrown as
`Failed to convert to Bruno: <message>`. -/
def convertToBruno (cfg : PipelineConfig) (env : PipelineEnv)
    (id openapiPath : String) : StageResult String :=
  let collectionPath := joinPath cfg.collectionsDir id
  match env.mkdir cfg.collectionsDir with
  | .error e => (.error e, [])
  | .ok _ =>
    match env.execConvert openapiPath collectionPath with
    | .error e => (.error ("Failed to convert to Bruno: " ++ e), [])
    | .ok _ => (.ok collectionPath, [collectionPath])

/-- Stage `generateDocs` (converter.js lines 136–160): mkdir the docs
directory (a throw here propagates uncaught), then run the docs
generator — whose failure is caught, logged as a warning and otherwise
ignored: `docsPath` is returned whether or not the renderer
succeeded. -/
def generateDocs (cfg : PipelineConfig) (env : PipelineEnv)
    (id collectionPath : String) : StageResult String :=
  let docsPath := joinPath cfg.docsDir id
  match env.mkdir cfg.docsDir with
  | .error e => (.error e, [])
  | .ok _ =>
    match env.execDocs collectionPath docsPath with
    | .error _ => (.ok docsPath, [docsPath])
    | .ok _ => (.ok docsPath, [docsPath])

/-- The item handed to the pipeline (the fields of the scraper result
that `convertAndGenerateDocs` destructures). -/
structure ApiInfo where
  id : String
  name : String
  openapi_url : String
  github_url : String

/-- The object returned by `convertAndGenerateDocs`: the success shape
of converter.js lines 44–49 or the failure shape of lines 52–55. -/
structure ConversionResult where
  success : Bool
  collection_path : Option String := none
  docs_path : Option String := none
  openapi_path : Option String := none
  error : Option String := none
deriving Repr, DecidableEq

/-- Boundary `convertAndGenerateDocs` (converter.js lines 24–57): run the three
stages inside one `try`; the first throw is caught at the boundary and
returned as `{ success: false, error: message }`. Alongside the result
we collect the artifacts written by the stages that ran. -/
def convertAndGenerateDocs (cfg : PipelineConfig) (env : PipelineEnv)
    (api : ApiInfo) : ConversionResult × List String :=
  match downloadOpenAPISpec cfg env api.id api.openapi_url with
  | (.error e, a1) => ({ success := false, error := some e }, a1)
  | (.ok openapiPath, a1) =>
    match convertToBruno cfg env api.id openapiPath with
    | (.error e, a2) => ({ success := false, error := some e }, a1 ++ a2)
    | (.ok collectionPath, a2) =>
      match generateDocs cfg env api.id collectionPath with
      | (.error e, a3) => ({ success := false, error := some e }, a1 ++ a2 ++ a3)
      | (.ok docsPath, a3) =>
        ({ success := true,
           collection_path := some collectionPath,
           docs_path := some docsPath,
           openapi_path := some openapiPath }, a1 ++ a2 ++ a3)

/-! ## Batch Runner (`CatalogServer.runScrape`, src/api/server.js) -/

/-- The fields of the scrape-run record that `runScrape` writes. -/
structure ScrapeRunRecord where
  apis_found : Nat
  apis_processed : Nat
  status : String
deriving Repr, DecidableEq

/-- The per-item loop of `runScrape`: each API goes through
`convertAndGenerateDocs`; `processed` is incremented only when the
result has `success: true` (a failed result is kept by the pipeline
as `success:false`, the loop just does not count it). -/
def runScrapeLoop (cfg : PipelineConfig) (env : PipelineEnv) :
    List ApiInfo → Nat
  | [] => 0
  | api :: rest =>
    (if (convertAndGenerateDocs cfg env api).1.success then 1 else 0) +
      runScrapeLoop cfg env rest

/-- Runner `runScrape` (server.js): record `apis_found` once discovery is
done, run the loop, and finalize the run as `completed` with
`apis_processed` set to the number of successful items. The whole body
sits in a `try` whose `catch` marks the run `failed`; the pipeline
itself never throws, so with total database collaborators the loop
always reaches the `completed` finalization. -/
def runScrape (cfg : PipelineConfig) (env : PipelineEnv)
    (apis : List ApiInfo) : ScrapeRunRecord :=
  { apis_found := apis.length
    apis_processed := runScrapeLoop cfg env apis
    status := "completed" }

/-! ## Discovery crawler (`src/scraper/github-scraper.js`, star-range
revision) -/

/-- A star range of the query partitioner (scraper lines 36–42). -/
structure StarRange where
  min : Nat
  max : Option Nat
  label : String
deriving Repr, DecidableEq

/-- The hard-coded default gates (scraper lines 36–42). -/
def defaultStarRanges : List StarRange :=
  [⟨1000, none, "1000+"⟩,
   ⟨100, some 999, "100-999"⟩,
   ⟨10, some 99, "10-99"⟩,
   ⟨1, some 9, "1-9"⟩,
   ⟨0, some 0, "0"⟩]

/-- The two `continue` guards of scraper lines 47–48:
`range.max !== null && range.max < minStars`, and
`range.min < minStars && range.max === null`. -/
def skipRange (minStars : Nat) (r : StarRange) : Bool :=
  match r.max with
  | some m => m < minStars
  | none => r.min < minStars

/-- Whether a star count lies in a gate's range. -/
def inRange (r : StarRange) (s : Nat) : Bool :=
  r.min ≤ s &&
    match r.max with
    | some m => s ≤ m
    | none => true

/-- A gate lies entirely below a threshold exactly when it is bounded
with `max < t` (an unbounded gate contains arbitrarily large scores). -/
def entirelyBelow (t : Nat) (r : StarRange) : Bool :=
  match r.max with
  | some m => m < t
  | none => false

/-- The star fragment of the query string (scraper lines 52–59). -/
def starQuery (r : StarRange) : String :=
  match r.max with
  | none => "stars:>=" ++ toString r.min
  | some m =>
      if r.min = m then "stars:" ++ toString r.min
      else "stars:" ++ toString r.min ++ ".." ++ toString m

/-- Builds `filename:<pattern> <starQuery>` (scraper line 61). -/
def buildQuery (pattern : String) (r : StarRange) : String :=
  "filename:" ++ pattern ++ " " ++ starQuery r

/-- A raw code-search hit: the fields of `searchResults.data.items[i]`
that the crawler reads. -/
structure RawHit where
  owner : String
  repoName : String
  path : String
deriving Repr, DecidableEq

/-- The dedup key of scraper line 99:
`owner.login + "/" + repository.name + "/" + item.path`. -/
def repoKey (hit : RawHit) : String :=
  hit.owner ++ "/" ++ hit.repoName ++ "/" ++ hit.path

/-- The fields of `repos.get` responses that the crawler reads. -/
structure RepoInfo where
  stargazers_count : Nat
  name : String
  description : Option String
  html_url : String
deriving Repr

/-- The fields of `repos.getContent` responses that the crawler reads
(content already base64-decoded). -/
structure FileContent where
  content : String
  download_url : String
deriving Repr

/-- The GitHub API as seen by the scraper; an `.error` models a thrown
octokit call. -/
structure ScraperEnv where
  search : String → Nat → Except Unit (List RawHit)
  repoGet : String → String → Except Unit RepoInfo
  getContent : String → String → String → Except Unit FileContent
  jsonParse : String → Option JsonValue

/-- The options object of `searchOpenAPIFiles` with its defaults
(scraper lines 18–30). -/
structure SearchOptions where
  minStars : Nat := 0
  maxResults : Nat := 10000
  filePatterns : List String :=
    ["openapi.json", "openapi.yaml", "openapi.yml",
     "swagger.json", "swagger.yaml", "swagger.yml"]
  useStarRanges : Bool := true

/-- The gate list actually iterated (scraper lines 36–42). -/
def searchRanges (opts : SearchOptions) : List StarRange :=
  if opts.useStarRanges then defaultStarRanges
  else [⟨opts.minStars, none, toString opts.minStars ++ "+"⟩]

/-- JavaScript `a || b`. -/
def jsOr (a b : JsonValue) : JsonValue := if jsTruthy a then a else b

/-- The result object pushed at scraper lines 142–157 (the fields a
claim can observe; the random `uuidv4()` id and wall-clock
`last_synced_at` are outside the model). `spec.info?.title` etc. are
JavaScript values, kept as such. -/
structure DiscoveredItem where
  name : JsonValue
  description : JsonValue
  version : JsonValue
  github_url : String
  openapi_url : String
  stars : Nat
  file_path : String
  repo_owner : String
  repo_name : String
  spec : JsonValue
  source_url : String
deriving Repr

/-- The dedup key of a pushed result, built from the same three fields
the crawler keyed the hit by. -/
def itemKey (it : DiscoveredItem) : String :=
  it.repo_owner ++ "/" ++ it.repo_name ++ "/" ++ it.file_path

/-- One entry of the observable trace of external calls the crawler
makes, in order. -/
inductive ApiCall where
  | searchCode (q : String) (page : Nat)
  | reposGet (owner repo : String)
  | reposGetContent (owner repo path : String)
  | rateLimitGet
  | sleep (ms : Nat)
deriving Repr, DecidableEq

/-- The crawler's mutable state: `results`, the `seenRepos` set
(modelled as the list of added keys), and the trace of external calls
issued so far. -/
structure ScrapeState where
  results : List DiscoveredItem
  seen : List String
  calls : List ApiCall
deriving Repr

def logCall (st : ScrapeState) (c : ApiCall) : ScrapeState :=
  { st with calls := st.calls ++ [c] }

/-- The body of `for (const item of searchResults.data.items)`
(scraper lines 91–166) for one hit, after the max-results guard:
dedup check, `repos.get`, star post-filter, `repos.getContent`,
JSON-parse attempt with raw fallback, then `seenRepos.add` and the
result push followed by `sleep(1000)`. The inner `try`'s catch makes
any failed octokit call leave `results` and `seen` untouched. -/
def processHit (env : ScraperEnv) (opts : SearchOptions)
    (st : ScrapeState) (hit : RawHit) : ScrapeState :=
  let key := repoKey hit
  if key ∈ st.seen then st
  else
    let st := logCall st (.reposGet hit.owner hit.repoName)
    match env.repoGet hit.owner hit.repoName with
    | .error _ => st
    | .ok repo =>
      if repo.stargazers_count < opts.minStars then st
      else
        let st := logCall st (.reposGetContent hit.owner hit.repoName hit.path)
        match env.getContent hit.owner hit.repoName hit.path with
        | .error _ => st
        | .ok fc =>
          let spec : JsonValue :=
            match env.jsonParse fc.content with
            | some v => v
            | none => .obj [("raw", .str fc.content)]
          let item : DiscoveredItem :=
            { name := jsOr (getField (getField spec "info") "title") (.str repo.name)
              description :=
                jsOr (getField (getField spec "info") "description")
                  (jsOr (match repo.description with
                         | some d => .str d
                         | none => .null) (.str ""))
              version := jsOr (getField (getField spec "info") "version") (.str "1.0.0")
              github_url := repo.html_url
              openapi_url := fc.download_url
              stars := repo.stargazers_count
              file_path := hit.path
              repo_owner := hit.owner
              repo_name := hit.repoName
              spec := spec
              source_url := fc.download_url }
          let st := { st with seen := st.seen ++ [key],
                              results := st.results ++ [item] }
          logCall st (.sleep 1000)

/-- The hit loop of scraper lines 91–166: stop (`break`) as soon as
`results.length >= maxResults`, otherwise process the hit and go on. -/
def processItems (env : ScraperEnv) (opts : SearchOptions)
    (st : ScrapeState) : List RawHit → ScrapeState
  | [] => st
  | hit :: rest =>
    if st.results.length ≥ opts.maxResults then st
    else processItems env opts (processHit env opts st hit) rest

/-- The page loop of scraper lines 67–171, from page `page` with `fuel`
pages left (entered with `page = 1`, `fuel = maxPages = 10`): stop on
the max-results guard; issue the search call; a thrown search is caught
and `break`s pagination; an empty page `break`s; otherwise process the
page's hits and continue with the next page. -/
def runPages (env : ScraperEnv) (opts : SearchOptions) (query : String)
    (st : ScrapeState) : Nat → Nat → ScrapeState
  | _, 0 => st
  | page, fuel + 1 =>
    if st.results.length ≥ opts.maxResults then st
    else
      let st := logCall st (.searchCode query page)
      match env.search query page with
      | .error _ => st
      | .ok items =>
        if items.isEmpty then st
        else runPages env opts query (processItems env opts st items) (page + 1) fuel

/-- The gate loop of scraper lines 45–182: skip gates per
`skipRange`, run the pages of `buildQuery pattern gate`, and `break`
out when `maxResults` is reached. -/
def runRanges (env : ScraperEnv) (opts : SearchOptions) (pattern : String)
    (st : ScrapeState) : List StarRange → ScrapeState
  | [] => st
  | r :: rest =>
    if skipRange opts.minStars r then runRanges env opts pattern st rest
    else
      let st := runPages env opts (buildQuery pattern r) st 1 10
      if st.results.length ≥ opts.maxResults then st
      else runRanges env opts pattern st rest

/-- The pattern loop of scraper lines 44–188. -/
def runPatterns (env : ScraperEnv) (opts : SearchOptions)
    (st : ScrapeState) : List String → ScrapeState
  | [] => st
  | p :: rest =>
    let st := runRanges env opts p st (searchRanges opts)
    if st.results.length ≥ opts.maxResults then st
    else runPatterns env opts st rest

def initialState : ScrapeState := { results := [], seen := [], calls := [] }

/-- Crawler `searchOpenAPIFiles` (scraper lines 17–195), returning the final
crawler state. -/
def searchOpenAPIFilesState (env : ScraperEnv) (opts : SearchOptions) :
    ScrapeState :=
  runPatterns env opts initialState opts.filePatterns

/-- The `results` array returned by `searchOpenAPIFiles`. -/
def searchOpenAPIFiles (env : ScraperEnv) (opts : SearchOptions) :
    List DiscoveredItem :=
  (searchOpenAPIFilesState env opts).results

/-! ## Theorems -/

/-- Any value with a truthy version field is itself truthy (it must be
an object for the property lookup to yield anything truthy). -/
theorem jsTruthy_of_hasVersionField {v : JsonValue}
    (h : hasVersionField v = true) : jsTruthy v = true := by
  cases v <;> simp [hasVersionField, getField, jsTruthy] at h ⊢

/-- C3 (as stated) is false: for threshold T = 50, the score 50 lies in
[T, ∞) but no default gate with minScore ≥ 50 contains it — the gates
with minScore ≥ T are [1000,∞) and [100,999], whose union misses
[50,99]. -/
theorem c3_minScore_filter_gap :
    50 ≤ 50 ∧
      (defaultStarRanges.filter (fun r => 50 ≤ r.min)).all
        (fun r => !inRange r 50) = true := by
  constructor
  · exact Nat.le_refl 50
  · rfl

/-- C3, amended. The default gates are a partition of [0, ∞): every
score lies in exactly one gate (coverage, no gap, no overlap). And for
any threshold T, the gates that are not entirely below T — exactly the
gates the crawler keeps — cover [T, ∞) with no gaps. (Filtering by
minScore ≥ T instead covers [T, ∞) only when T is a gate boundary.) -/
theorem c3_default_gates_partition :
    (∀ s : Nat, ∃! r : StarRange, r ∈ defaultStarRanges ∧ inRange r s = true) ∧
    (∀ T s : Nat, T ≤ s →
      ∃ r ∈ defaultStarRanges, entirelyBelow T r = false ∧ inRange r s = true) := by
  have cover : ∀ s : Nat, ∃! r : StarRange, r ∈ defaultStarRanges ∧ inRange r s = true := by
    intro s
    by_cases h1000 : 1000 ≤ s
    · refine ⟨⟨1000, none, "1000+"⟩, ⟨by simp [defaultStarRanges], by simp [inRange, h1000]⟩, ?_⟩
      rintro r ⟨hr, hin⟩
      simp [defaultStarRanges] at hr
      rcases hr with rfl | rfl | rfl | rfl | rfl <;> simp_all [inRange]
      all_goals omega
    · by_cases h100 : 100 ≤ s
      · refine ⟨⟨100, some 999, "100-999"⟩,
          ⟨by simp [defaultStarRanges], by simp [inRange]; omega⟩, ?_⟩
        rintro r ⟨hr, hin⟩
        simp [defaultStarRanges] at hr
        rcases hr with rfl | rfl | rfl | rfl | rfl <;> simp_all [inRange] <;> omega
      · by_cases h10 : 10 ≤ s
        · refine ⟨⟨10, some 99, "10-99"⟩,
            ⟨by simp [defaultStarRanges], by simp [inRange]; omega⟩, ?_⟩
          rintro r ⟨hr, hin⟩
          simp [defaultStarRanges] at hr
          rcases hr with rfl | rfl | rfl | rfl | rfl <;> simp_all [inRange] <;> omega
        · by_cases h1 : 1 ≤ s
          · refine ⟨⟨1, some 9, "1-9"⟩,
              ⟨by simp [defaultStarRanges], by simp [inRange]; omega⟩, ?_⟩
            rintro r ⟨hr, hin⟩
            simp [defaultStarRanges] at hr
            rcases hr with rfl | rfl | rfl | rfl | rfl <;> simp_all [inRange]
            all_goals omega
          · refine ⟨⟨0, some 0, "0"⟩,
              ⟨by simp [defaultStarRanges], by simp [inRange]; omega⟩, ?_⟩
            rintro r ⟨hr, hin⟩
            simp [defaultStarRanges] at hr
            rcases hr with rfl | rfl | rfl | rfl | rfl <;> simp_all [inRange]
  refine ⟨cover, ?_⟩
  intro T s hTs
  obtain ⟨r, ⟨hmem, hin⟩, -⟩ := cover s
  refine ⟨r, hmem, ?_, hin⟩
  simp only [inRange, Bool.and_eq_true, decide_eq_true_eq] at hin
  cases hmax : r.max with
  | none => simp [entirelyBelow, hmax]
  | some m =>
      rw [hmax] at hin
      simp only [entirelyBelow, hmax, decide_eq_false_iff_not, not_lt]
      simp at hin
      omega

/-- Witness for the amended C3: threshold T = 7 and score s = 123; the
theorem produces a non-skipped default gate containing 123. -/
theorem c3_default_gates_partition_witness :
    7 ≤ 123 ∧
      ∃ r ∈ defaultStarRanges, entirelyBelow 7 r = false ∧ inRange r 123 = true :=
  ⟨by omega, c3_default_gates_partition.2 7 123 (by omega)⟩

/-- C4: the skip guard of scraper lines 47–48 evaluated at
minStars = 2000 on the default unbounded gate [1000,∞): the gate is
skipped although it is not entirely below 2000 — it contains the score
2000 itself. This contradicts the claim (and the code's own comment
"Skip ranges below minStars"): the crawler silently searches nothing
for thresholds above the top gate's minimum. -/
theorem c4_skip_guard_drops_unbounded_gate :
    (⟨1000, none, "1000+"⟩ : StarRange) ∈ defaultStarRanges ∧
    skipRange 2000 ⟨1000, none, "1000+"⟩ = true ∧
    entirelyBelow 2000 ⟨1000, none, "1000+"⟩ = false ∧
    inRange ⟨1000, none, "1000+"⟩ 2000 = true ∧
    2000 ≤ 2000 := by
  refine ⟨by simp [defaultStarRanges], rfl, rfl, ?_, Nat.le_refl 2000⟩
  simp [inRange]

theorem logCall_results (st : ScrapeState) (c : ApiCall) :
    (logCall st c).results = st.results := rfl

theorem logCall_seen (st : ScrapeState) (c : ApiCall) :
    (logCall st c).seen = st.seen := rfl

/-- Processing one raw hit appends at most one result. -/
theorem processHit_results_length (env : ScraperEnv) (opts : SearchOptions)
    (st : ScrapeState) (hit : RawHit) :
    (processHit env opts st hit).results.length ≤ st.results.length + 1 := by
  unfold processHit
  by_cases hk : repoKey hit ∈ st.seen
  · simp [hk]
  · cases hrg : env.repoGet hit.owner hit.repoName with
    | error e => simp [hk, hrg, logCall]
    | ok repo =>
      by_cases hs : repo.stargazers_count < opts.minStars
      · simp [hk, hrg, hs, logCall]
      · cases hgc : env.getContent hit.owner hit.repoName hit.path with
        | error e => simp [hk, hrg, hs, hgc, logCall]
        | ok fc =>
          cases hjp : env.jsonParse fc.content <;>
            simp [hk, hrg, hs, hgc, hjp, logCall]

/-- The hit loop never grows `results` past `maxResults`. -/
theorem processItems_results_le (env : ScraperEnv) (opts : SearchOptions)
    (hits : List RawHit) (st : ScrapeState)
    (h : st.results.length ≤ opts.maxResults) :
    (processItems env opts st hits).results.length ≤ opts.maxResults := by
  induction hits generalizing st with
  | nil => exact h
  | cons hit rest ih =>
    unfold processItems
    split
    · exact h
    · rename_i hlt
      apply ih
      have := processHit_results_length env opts st hit
      omega

/-- The page loop never grows `results` past `maxResults`. -/
theorem runPages_results_le (env : ScraperEnv) (opts : SearchOptions)
    (query : String) (st : ScrapeState) (page fuel : Nat)
    (h : st.results.length ≤ opts.maxResults) :
    (runPages env opts query st page fuel).results.length ≤ opts.maxResults := by
  induction fuel generalizing st page with
  | zero => exact h
  | succ n ih =>
    unfold runPages
    split
    · exact h
    · split
      · simpa [logCall] using h
      · split
        · simpa [logCall] using h
        · exact ih _ _ (processItems_results_le env opts _ _ (by simpa [logCall] using h))

/-- The gate loop never grows `results` past `maxResults`. -/
theorem runRanges_results_le (env : ScraperEnv) (opts : SearchOptions)
    (pattern : String) (rs : List StarRange) (st : ScrapeState)
    (h : st.results.length ≤ opts.maxResults) :
    (runRanges env opts pattern st rs).results.length ≤ opts.maxResults := by
  induction rs generalizing st with
  | nil => exact h
  | cons r rest ih =>
    unfold runRanges
    split
    · exact ih _ h
    · have h2 := runPages_results_le env opts (buildQuery pattern r) st 1 10 h
      dsimp only
      split
      · exact h2
      · exact ih _ h2

/-- The pattern loop never grows `results` past `maxResults`. -/
theorem runPatterns_results_le (env : ScraperEnv) (opts : SearchOptions)
    (ps : List String) (st : ScrapeState)
    (h : st.results.length ≤ opts.maxResults) :
    (runPatterns env opts st ps).results.length ≤ opts.maxResults := by
  induction ps generalizing st with
  | nil => exact h
  | cons p rest ih =>
    unfold runPatterns
    have h2 := runRanges_results_le env opts p (searchRanges opts) st h
    dsimp only
    split
    · exact h2
    · exact ih _ h2

/-- C2: for every environment (any number of raw hits, over all
patterns, gates and pages) and every `maxResults`, `searchOpenAPIFiles`
returns at most `maxResults` items. -/
theorem c2_result_cap (env : ScraperEnv) (opts : SearchOptions) :
    (searchOpenAPIFiles env opts).length ≤ opts.maxResults := by
  unfold searchOpenAPIFiles searchOpenAPIFilesState
  exact runPatterns_results_le env opts _ _ (by simp [initialState])

/-- The crawler's dedup invariant: every emitted item's key has been
added to the seen-set, and no two emitted items share a key. -/
def DedupInv (st : ScrapeState) : Prop :=
  (∀ it ∈ st.results, itemKey it ∈ st.seen) ∧ (st.results.map itemKey).Nodup

theorem dedupInv_log {st : ScrapeState} (c : ApiCall) (h : DedupInv st) :
    DedupInv (logCall st c) := h

/-- Appending a fresh-keyed item to the results and its key to the
seen-set preserves the dedup invariant. -/
theorem dedupInv_push {results : List DiscoveredItem} {seen : List String}
    {item : DiscoveredItem}
    (h1 : ∀ it ∈ results, itemKey it ∈ seen)
    (h2 : (results.map itemKey).Nodup)
    (hk : itemKey item ∉ seen) :
    (∀ it ∈ results ++ [item], itemKey it ∈ seen ++ [itemKey item]) ∧
      ((results ++ [item]).map itemKey).Nodup := by
  constructor
  · intro it hmem
    rcases List.mem_append.1 hmem with h | h
    · exact List.mem_append_left _ (h1 it h)
    · simp only [List.mem_singleton] at h
      subst h
      simp
  · rw [List.map_append]
    rw [List.nodup_append]
    refine ⟨h2, by simp, ?_⟩
    intro x hx
    simp only [List.map_cons, List.map_nil, List.mem_singleton]
    intro heq
    subst heq
    rcases List.mem_map.1 hx with ⟨it, hit, hkey⟩
    exact hk (hkey ▸ h1 it hit)

theorem processHit_dedupInv (env : ScraperEnv) (opts : SearchOptions)
    (st : ScrapeState) (hit : RawHit) (h : DedupInv st) :
    DedupInv (processHit env opts st hit) := by
  obtain ⟨h1, h2⟩ := h
  unfold processHit
  by_cases hk : repoKey hit ∈ st.seen
  · simpa [hk] using ⟨h1, h2⟩
  · cases hrg : env.repoGet hit.owner hit.repoName with
    | error e => simp only [hk, if_false, hrg]; exact ⟨h1, h2⟩
    | ok repo =>
      by_cases hs : repo.stargazers_count < opts.minStars
      · simp only [hk, if_false, hrg, hs, if_true]; exact ⟨h1, h2⟩
      · cases hgc : env.getContent hit.owner hit.repoName hit.path with
        | error e =>
            simp only [hk, if_false, hrg, hs, if_true, hgc]
            exact ⟨h1, h2⟩
        | ok fc =>
            cases hjp : env.jsonParse fc.content <;>
              · simp only [hk, if_false, hrg, hs, hgc, hjp, logCall, DedupInv]
                exact dedupInv_push h1 h2 hk

theorem processItems_dedupInv (env : ScraperEnv) (opts : SearchOptions)
    (hits : List RawHit) (st : ScrapeState) (h : DedupInv st) :
    DedupInv (processItems env opts st hits) := by
  induction hits generalizing st with
  | nil => exact h
  | cons hit rest ih =>
    unfold processItems
    split
    · exact h
    · exact ih _ (processHit_dedupInv env opts st hit h)

theorem runPages_dedupInv (env : ScraperEnv) (opts : SearchOptions)
    (query : String) (st : ScrapeState) (page fuel : Nat) (h : DedupInv st) :
    DedupInv (runPages env opts query st page fuel) := by
  induction fuel generalizing st page with
  | zero => exact h
  | succ n ih =>
    unfold runPages
    split
    · exact h
    · split
      · exact dedupInv_log _ h
      · split
        · exact dedupInv_log _ h
        · exact ih _ _ (processItems_dedupInv env opts _ _ (dedupInv_log _ h))

theorem runRanges_dedupInv (env : ScraperEnv) (opts : SearchOptions)
    (pattern : String) (rs : List StarRange) (st : ScrapeState)
    (h : DedupInv st) : DedupInv (runRanges env opts pattern st rs) := by
  induction rs generalizing st with
  | nil => exact h
  | cons r rest ih =>
    unfold runRanges
    split
    · exact ih _ h
    · have h2 := runPages_dedupInv env opts (buildQuery pattern r) st 1 10 h
      dsimp only
      split
      · exact h2
      · exact ih _ h2

theorem runPatterns_dedupInv (env : ScraperEnv) (opts : SearchOptions)
    (ps : List String) (st : ScrapeState) (h : DedupInv st) :
    DedupInv (runPatterns env opts st ps) := by
  induction ps generalizing st with
  | nil => exact h
  | cons p rest ih =>
    unfold runPatterns
    have h2 := runRanges_dedupInv env opts p (searchRanges opts) st h
    dsimp only
    split
    · exact h2
    · exact ih _ h2

/-- C5: within one discovery run, no two returned DiscoveredItems share
the (owner, repo, path) dedup key, however often the same triple occurs
among the raw hits of any pages and sub-queries. -/
theorem c5_dedup_idempotent (env : ScraperEnv) (opts : SearchOptions) :
    ((searchOpenAPIFiles env opts).map itemKey).Nodup := by
  have h : DedupInv (searchOpenAPIFilesState env opts) :=
    runPatterns_dedupInv env opts _ _ (by constructor <;> simp [initialState])
  exact h.2

/-- Whether some enrichment step of a candidate fails (or the star
post-filter rejects it): the `repos.get` call throws, the repo is below
`minStars`, or the `repos.getContent` call throws. -/
def enrichFails (env : ScraperEnv) (opts : SearchOptions) (hit : RawHit) : Bool :=
  match env.repoGet hit.owner hit.repoName with
  | .error _ => true
  | .ok repo =>
    decide (repo.stargazers_count < opts.minStars) ||
      match env.getContent hit.owner hit.repoName hit.path with
      | .error _ => true
      | .ok _ => false

/-- C10: the dedup key is added to the seen-set only after repo fetch,
star filter, content fetch and result construction all went through; a
failed enrichment leaves both `results` and `seen` exactly as they
were, and a key absent from the index always triggers a fresh
`repos.get` call — a failed candidate reappearing later in the run is
attempted again, never dedup-skipped. -/
theorem c10_dedup_index_atomic (env : ScraperEnv) (opts : SearchOptions)
    (st : ScrapeState) (hit : RawHit) :
    (enrichFails env opts hit = true →
      (processHit env opts st hit).results = st.results ∧
        (processHit env opts st hit).seen = st.seen) ∧
    (repoKey hit ∉ st.seen → repoKey hit ∈ (processHit env opts st hit).seen →
      enrichFails env opts hit = false ∧
        ∃ it, (processHit env opts st hit).results = st.results ++ [it] ∧
          itemKey it = repoKey hit) ∧
    (repoKey hit ∉ st.seen →
      ∃ rest, (processHit env opts st hit).calls =
        st.calls ++ ApiCall.reposGet hit.owner hit.repoName :: rest) := by
  by_cases hk : repoKey hit ∈ st.seen
  · refine ⟨?_, ?_, ?_⟩
    · intro _
      constructor <;> simp [processHit, hk]
    · intro hnk _
      exact absurd hk hnk
    · intro hnk
      exact absurd hk hnk
  · cases hrg : env.repoGet hit.owner hit.repoName with
    | error e =>
      refine ⟨?_, ?_, ?_⟩
      · intro _
        simp [processHit, hk, hrg, logCall]
      · intro hnk hmem
        simp [processHit, hk, hrg, logCall] at hmem
      · intro _
        exact ⟨[], by simp [processHit, hk, hrg, logCall]⟩
    | ok repo =>
      by_cases hs : repo.stargazers_count < opts.minStars
      · refine ⟨?_, ?_, ?_⟩
        · intro _
          simp [processHit, hk, hrg, hs, logCall]
        · intro hnk hmem
          simp [processHit, hk, hrg, hs, logCall] at hmem
        · intro _
          exact ⟨[], by simp [processHit, hk, hrg, hs, logCall]⟩
      · cases hgc : env.getContent hit.owner hit.repoName hit.path with
        | error e =>
          refine ⟨?_, ?_, ?_⟩
          · intro _
            simp [processHit, hk, hrg, hs, hgc, logCall]
          · intro hnk hmem
            simp [processHit, hk, hrg, hs, hgc, logCall] at hmem
          · intro _
            exact ⟨[ApiCall.reposGetContent hit.owner hit.repoName hit.path],
              by simp [processHit, hk, hrg, hs, hgc, logCall]⟩
        | ok fc =>
          have hef : enrichFails env opts hit = false := by
            simp [enrichFails, hrg, hs, hgc]
          refine ⟨?_, ?_, ?_⟩
          · intro hcontra
            rw [hef] at hcontra
            cases hcontra
          · intro hnk _
            refine ⟨hef, ?_⟩
            cases hjp : env.jsonParse fc.content with
            | some v =>
                unfold processHit
                simp only [hk, hrg, hs, hgc, hjp, logCall, if_false]
                exact ⟨_, rfl, rfl⟩
            | none =>
                unfold processHit
                simp only [hk, hrg, hs, hgc, hjp, logCall, if_false]
                exact ⟨_, rfl, rfl⟩
          · intro _
            cases hjp : env.jsonParse fc.content with
            | some v =>
                exact ⟨[ApiCall.reposGetContent hit.owner hit.repoName hit.path,
                        ApiCall.sleep 1000],
                  by simp [processHit, hk, hrg, hs, hgc, hjp, logCall]⟩
            | none =>
                exact ⟨[ApiCall.reposGetContent hit.owner hit.repoName hit.path,
                        ApiCall.sleep 1000],
                  by simp [processHit, hk, hrg, hs, hgc, hjp, logCall]⟩

theorem processHit_rlfree (env : ScraperEnv) (opts : SearchOptions)
    (st : ScrapeState) (hit : RawHit)
    (h : ApiCall.rateLimitGet ∉ st.calls) :
    ApiCall.rateLimitGet ∉ (processHit env opts st hit).calls := by
  unfold processHit
  by_cases hk : repoKey hit ∈ st.seen
  · simpa [hk] using h
  · cases hrg : env.repoGet hit.owner hit.repoName with
    | error e => simp [hk, hrg, logCall, h]
    | ok repo =>
      by_cases hs : repo.stargazers_count < opts.minStars
      · simp [hk, hrg, hs, logCall, h]
      · cases hgc : env.getContent hit.owner hit.repoName hit.path with
        | error e => simp [hk, hrg, hs, hgc, logCall, h]
        | ok fc =>
          cases hjp : env.jsonParse fc.content <;>
            simp [hk, hrg, hs, hgc, hjp, logCall, h]

theorem processItems_rlfree (env : ScraperEnv) (opts : SearchOptions)
    (hits : List RawHit) (st : ScrapeState)
    (h : ApiCall.rateLimitGet ∉ st.calls) :
    ApiCall.rateLimitGet ∉ (processItems env opts st hits).calls := by
  induction hits generalizing st with
  | nil => exact h
  | cons hit rest ih =>
    unfold processItems
    split
    · exact h
    · exact ih _ (processHit_rlfree env opts st hit h)

theorem runPages_rlfree (env : ScraperEnv) (opts : SearchOptions)
    (query : String) (st : ScrapeState) (page fuel : Nat)
    (h : ApiCall.rateLimitGet ∉ st.calls) :
    ApiCall.rateLimitGet ∉ (runPages env opts query st page fuel).calls := by
  induction fuel generalizing st page with
  | zero => exact h
  | succ n ih =>
    unfold runPages
    split
    · exact h
    · split
      · simp [logCall, h]
      · split
        · simp [logCall, h]
        · exact ih _ _ (processItems_rlfree env opts _ _ (by simp [logCall, h]))

theorem runRanges_rlfree (env : ScraperEnv) (opts : SearchOptions)
    (pattern : String) (rs : List StarRange) (st : ScrapeState)
    (h : ApiCall.rateLimitGet ∉ st.calls) :
    ApiCall.rateLimitGet ∉ (runRanges env opts pattern st rs).calls := by
  induction rs generalizing st with
  | nil => exact h
  | cons r rest ih =>
    unfold runRanges
    split
    · exact ih _ h
    · have h2 := runPages_rlfree env opts (buildQuery pattern r) st 1 10 h
      dsimp only
      split
      · exact h2
      · exact ih _ h2

theorem runPatterns_rlfree (env : ScraperEnv) (opts : SearchOptions)
    (ps : List String) (st : ScrapeState)
    (h : ApiCall.rateLimitGet ∉ st.calls) :
    ApiCall.rateLimitGet ∉ (runPatterns env opts st ps).calls := by
  induction ps generalizing st with
  | nil => exact h
  | cons p rest ih =>
    unfold runPatterns
    have h2 := runRanges_rlfree env opts p (searchRanges opts) st h
    dsimp only
    split
    · exact h2
    · exact ih _ h2

/-- C7, amended: the crawler has no quota tracking at all. It never
calls the rate-limit endpoint during a search run, and a thrown search
call (quota-exceeded errors included) is attempted exactly once — the
page loop stops for that sub-query immediately, with no wait and no
retry, and the crawl moves on to the next gate/pattern. -/
theorem c7_no_quota_tracking (env : ScraperEnv) (opts : SearchOptions) :
    ApiCall.rateLimitGet ∉ (searchOpenAPIFilesState env opts).calls ∧
    (∀ (query : String) (st : ScrapeState) (page fuel : Nat),
      st.results.length < opts.maxResults →
      env.search query page = .error () →
      runPages env opts query st page (fuel + 1) =
        logCall st (.searchCode query page)) := by
  constructor
  · exact runPatterns_rlfree env opts _ _ (by simp [initialState])
  · intro query st page fuel h1 h2
    unfold runPages
    rw [if_neg (by omega)]
    rw [h2]

/-- A GitHub API environment in which every search call throws (as a
quota-exceeded 403 would). -/
def envAllSearchesFail : ScraperEnv :=
  { search := fun _ _ => .error ()
    repoGet := fun _ _ => .error ()
    getContent := fun _ _ _ => .error ()
    jsonParse := fun _ => none }

/-- A single-pattern options object, everything else defaulted. -/
def optsSinglePattern : SearchOptions := { filePatterns := ["openapi.json"] }

/-- C7 (as stated) is false: run the crawler against an API whose every
search call fails with a quota-class error. The complete call trace is
five search calls — one per non-skipped gate — and nothing else: no
rate-limit read ever precedes a search call, no failed sub-query is
retried a second time, and no wait is inserted. -/
theorem c7_quota_suspension_counterexample :
    (searchOpenAPIFilesState envAllSearchesFail optsSinglePattern).calls =
      [ApiCall.searchCode "filename:openapi.json stars:>=1000" 1,
       ApiCall.searchCode "filename:openapi.json stars:100..999" 1,
       ApiCall.searchCode "filename:openapi.json stars:10..99" 1,
       ApiCall.searchCode "filename:openapi.json stars:1..9" 1,
       ApiCall.searchCode "filename:openapi.json stars:0" 1] := by
  rfl

/-- Witness for the amended C7, at the concrete all-failing environment:
no rate-limit read occurs, and the first failing sub-query performs its
single search attempt and stops. -/
theorem c7_no_quota_tracking_witness :
    ApiCall.rateLimitGet ∉
      (searchOpenAPIFilesState envAllSearchesFail optsSinglePattern).calls ∧
    runPages envAllSearchesFail optsSinglePattern
        "filename:openapi.json stars:>=1000" initialState 1 10 =
      logCall initialState (.searchCode "filename:openapi.json stars:>=1000" 1) :=
  ⟨(c7_no_quota_tracking envAllSearchesFail optsSinglePattern).1,
   (c7_no_quota_tracking envAllSearchesFail optsSinglePattern).2
     "filename:openapi.json stars:>=1000" initialState 1 9 (by decide) rfl⟩

/-- Whether the validation step of `downloadOpenAPISpec` accepts the
downloaded content (returns instead of throwing). -/
def normalizerAccepts (P : Parsers) (content : String) : Bool :=
  match normalizeSpec P content with
  | .ok _ => true
  | .error _ => false

/-- C6, amended: the Normalizer accepts exactly the contents that parse
(as JSON, or as YAML) to a structure with a truthy `openapi` or
`swagger` field; in particular a swagger-2.0 document is accepted and a
version-free one rejected. JSON is tried first — but YAML is attempted
not only on JSON parse failure: also when JSON parsed and the value
lacks both version fields, since the missing-field throw lands in the
same catch block as a parse error. -/
theorem c6_normalizer_acceptance (P : Parsers) (content : String) :
    (normalizerAccepts P content = true ↔
      (∃ v, P.jsonParse content = some v ∧ hasVersionField v = true) ∨
      (∃ y, P.yamlLoad content = some y ∧ hasVersionField y = true)) ∧
    (yamlAttempted P content = true ↔
      P.jsonParse content = none ∨
      ∃ v, P.jsonParse content = some v ∧ hasVersionField v = false) := by
  constructor
  · cases hj : P.jsonParse content with
    | some v =>
      by_cases hv : hasVersionField v = true
      · simp [normalizerAccepts, normalizeSpec, hj, hv]
      · cases hy : P.yamlLoad content with
        | none => simp [normalizerAccepts, normalizeSpec, yamlFallback, hj, hy, hv]
        | some y =>
          by_cases hvy : hasVersionField y = true
          · simp [normalizerAccepts, normalizeSpec, yamlFallback, hj, hy, hvy,
              jsTruthy_of_hasVersionField hvy, hv]
          · simp [normalizerAccepts, normalizeSpec, yamlFallback, hj, hy, hvy, hv]
    | none =>
      cases hy : P.yamlLoad content with
      | none => simp [normalizerAccepts, normalizeSpec, yamlFallback, hj, hy]
      | some y =>
        by_cases hvy : hasVersionField y = true
        · simp [normalizerAccepts, normalizeSpec, yamlFallback, hj, hy, hvy,
            jsTruthy_of_hasVersionField hvy]
        · simp [normalizerAccepts, normalizeSpec, yamlFallback, hj, hy, hvy]
  · cases hj : P.jsonParse content with
    | some v => by_cases hv : hasVersionField v = true <;> simp [yamlAttempted, hj, hv]
    | none => simp [yamlAttempted, hj]

/-- The document content `{"foo": "bar"}` (braces escaped): valid JSON
(also valid YAML) with no version field. -/
def contentFooBar : String := "\x7b\x22foo\x22: \x22bar\x22\x7d"

/-- The value both `JSON.parse` and `yaml.load` produce for
`contentFooBar`. -/
def valueFooBar : JsonValue := .obj [("foo", .str "bar")]

/-- A parser environment that agrees with Node's `JSON.parse` and
js-yaml's `load` on `contentFooBar` (both parse it, to the same
object). -/
def parsersFooBar : Parsers :=
  { jsonParse := fun c => if c = contentFooBar then some valueFooBar else none
    yamlLoad := fun c => if c = contentFooBar then some valueFooBar else none
    stringify := fun _ => "" }

/-- C6 (as stated) is false in its last clause: on `{"foo": "bar"}` the
JSON parse succeeds, yet the YAML parse is still attempted (the
missing-field throw is caught by the JSON catch block); the document is
rejected, as the claim's scenario requires, but not via the path the
claim describes. -/
theorem c6_yaml_attempted_despite_json_success :
    (parsersFooBar.jsonParse contentFooBar).isSome = true ∧
    yamlAttempted parsersFooBar contentFooBar = true ∧
    normalizerAccepts parsersFooBar contentFooBar = false :=
  ⟨rfl, rfl, rfl⟩

/-- A compact JSON encoding of a swagger-2.0 stub (braces escaped):
`{"swagger":"2.0"}`. -/
def jsonSwagger : String := "\x7b\x22swagger\x22:\x222.0\x22\x7d"

/-- The equivalent YAML encoding: `swagger: "2.0"`. -/
def yamlSwagger : String := "swagger: \x222.0\x22"

/-- The document both encodings denote. -/
def valueSwagger : JsonValue := .obj [("swagger", .str "2.0")]

/-- The output of `JSON.stringify(valueSwagger, null, 2)`: the same
object pretty-printed with two-space indentation — different bytes from
the compact `jsonSwagger`. -/
def prettySwagger : String := "\x7b\n  \x22swagger\x22: \x222.0\x22\n\x7d"

/-- A parser environment agreeing with Node's `JSON.parse`, js-yaml's
`load` and `JSON.stringify(·, null, 2)` on the three concrete strings
and the one value probed here. -/
def parsersSwagger : Parsers :=
  { jsonParse := fun c =>
      if c = jsonSwagger then some valueSwagger
      else if c = prettySwagger then some valueSwagger
      else none
    yamlLoad := fun c =>
      if c = yamlSwagger then some valueSwagger
      else if c = jsonSwagger then some valueSwagger
      else if c = prettySwagger then some valueSwagger
      else none
    stringify := fun _ => prettySwagger }

/-- C8 (as stated) is false: a compact JSON encoding and the equivalent
YAML encoding of the same swagger document do not produce identical
normalized output — the JSON branch keeps the downloaded bytes as they
are, while the YAML branch re-serializes through
`JSON.stringify(·, null, 2)`. -/
theorem c8_normalized_output_not_identical :
    parsersSwagger.jsonParse jsonSwagger = parsersSwagger.yamlLoad yamlSwagger ∧
    normalizeSpec parsersSwagger jsonSwagger = .ok jsonSwagger ∧
    normalizeSpec parsersSwagger yamlSwagger = .ok prettySwagger ∧
    jsonSwagger ≠ prettySwagger :=
  ⟨rfl, rfl, rfl, by decide⟩

/-- C8, amended: a JSON encoding and an equivalent YAML encoding of the
same valid document produce normalized outputs that re-parse (as JSON)
to the same document — semantically identical, but byte-identical only
when the JSON input already equals its canonical stringify form. The
stringify/parse round-trip of the JSON library is assumed. -/
theorem c8_format_coercion_semantic (P : Parsers) (v : JsonValue)
    (c1 c2 : String)
    (h1 : P.jsonParse c1 = some v) (hv : hasVersionField v = true)
    (h2 : P.jsonParse c2 = none) (h2y : P.yamlLoad c2 = some v)
    (hrt : P.jsonParse (P.stringify v) = some v) :
    ∃ o1 o2, normalizeSpec P c1 = .ok o1 ∧ normalizeSpec P c2 = .ok o2 ∧
      P.jsonParse o1 = some v ∧ P.jsonParse o2 = some v := by
  refine ⟨c1, P.stringify v, ?_, ?_, h1, hrt⟩
  · simp [normalizeSpec, h1, hv]
  · simp [normalizeSpec, yamlFallback, h2, h2y, hv, jsTruthy_of_hasVersionField hv]

/-- Witness for the amended C6: a compact swagger-2.0 JSON document is
accepted by the Normalizer. -/
theorem c6_normalizer_acceptance_witness :
    normalizerAccepts parsersSwagger jsonSwagger = true :=
  (c6_normalizer_acceptance parsersSwagger jsonSwagger).1.mpr
    (Or.inl ⟨valueSwagger, rfl, rfl⟩)

/-- Witness for the amended C8 at the concrete swagger encodings. -/
theorem c8_format_coercion_semantic_witness :
    ∃ o1 o2, normalizeSpec parsersSwagger jsonSwagger = .ok o1 ∧
      normalizeSpec parsersSwagger yamlSwagger = .ok o2 ∧
      parsersSwagger.jsonParse o1 = some valueSwagger ∧
      parsersSwagger.jsonParse o2 = some valueSwagger :=
  c8_format_coercion_semantic parsersSwagger valueSwagger jsonSwagger
    yamlSwagger rfl rfl rfl rfl rfl

/-- Every failed pipeline result carries an error message. -/
theorem conversionResult_failure_has_error (cfg : PipelineConfig)
    (env : PipelineEnv) (api : ApiInfo)
    (hfail : (convertAndGenerateDocs cfg env api).1.success = false) :
    ∃ e, (convertAndGenerateDocs cfg env api).1.error = some e := by
  rcases hdl : downloadOpenAPISpec cfg env api.id api.openapi_url with ⟨res1, a1⟩
  cases res1 with
  | error e => simp [convertAndGenerateDocs, hdl]
  | ok p1 =>
    rcases hcv : convertToBruno cfg env api.id p1 with ⟨res2, a2⟩
    cases res2 with
    | error e => simp [convertAndGenerateDocs, hdl, hcv]
    | ok p2 =>
      rcases hgd : generateDocs cfg env api.id p2 with ⟨res3, a3⟩
      cases res3 with
      | error e => simp [convertAndGenerateDocs, hdl, hcv, hgd]
      | ok p3 =>
        simp [convertAndGenerateDocs, hdl, hcv, hgd] at hfail

theorem runScrapeLoop_append (cfg : PipelineConfig) (env : PipelineEnv)
    (l1 l2 : List ApiInfo) :
    runScrapeLoop cfg env (l1 ++ l2) =
      runScrapeLoop cfg env l1 + runScrapeLoop cfg env l2 := by
  induction l1 with
  | nil => simp [runScrapeLoop]
  | cons a rest ih => simp [runScrapeLoop, ih]; omega

theorem runScrapeLoop_all_success (cfg : PipelineConfig) (env : PipelineEnv)
    (l : List ApiInfo)
    (h : ∀ a ∈ l, (convertAndGenerateDocs cfg env a).1.success = true) :
    runScrapeLoop cfg env l = l.length := by
  induction l with
  | nil => rfl
  | cons a rest ih =>
    have ha := h a (List.mem_cons_self a rest)
    unfold runScrapeLoop
    rw [ha, ih fun b hb => h b (List.mem_cons_of_mem a hb)]
    simp [Nat.add_comm]

theorem runScrapeLoop_cons (cfg : PipelineConfig) (env : PipelineEnv)
    (a : ApiInfo) (l : List ApiInfo) :
    runScrapeLoop cfg env (a :: l) =
      (if (convertAndGenerateDocs cfg env a).1.success then 1 else 0) +
        runScrapeLoop cfg env l := rfl

/-- C1: `convertAndGenerateDocs` never lets a failure escape — every
failed item yields a `success:false` result with an error message — and
a batch holding one item whose downloaded spec parses neither as JSON
nor as YAML still completes, with `apis_processed = N - 1` and the bad
item's failure recorded in its ConversionResult. -/
theorem c1_per_item_failure_isolation (cfg : PipelineConfig)
    (env : PipelineEnv) (pre post : List ApiInfo) (bad : ApiInfo)
    (badContent : String)
    (hpre : ∀ a ∈ pre, (convertAndGenerateDocs cfg env a).1.success = true)
    (hpost : ∀ a ∈ post, (convertAndGenerateDocs cfg env a).1.success = true)
    (hmk : env.mkdir cfg.openapiDir = .ok ())
    (hfetch : env.curlFetch bad.openapi_url = .ok badContent)
    (hjson : env.parsers.jsonParse badContent = none)
    (hyaml : env.parsers.yamlLoad badContent = none) :
    (∀ api : ApiInfo, (convertAndGenerateDocs cfg env api).1.success = false →
      ∃ e, (convertAndGenerateDocs cfg env api).1.error = some e) ∧
    (convertAndGenerateDocs cfg env bad).1 =
      { success := false,
        error := some "Downloaded file is not a valid OpenAPI spec (not JSON or YAML)" } ∧
    runScrape cfg env (pre ++ bad :: post) =
      { apis_found := pre.length + post.length + 1
        apis_processed := pre.length + post.length
        status := "completed" } := by
  have hbad : (convertAndGenerateDocs cfg env bad).1 =
      { success := false,
        error := some "Downloaded file is not a valid OpenAPI spec (not JSON or YAML)" } := by
    simp [convertAndGenerateDocs, downloadOpenAPISpec, normalizeSpec,
      yamlFallback, hmk, hfetch, hjson, hyaml]
  refine ⟨conversionResult_failure_has_error cfg env, hbad, ?_⟩
  unfold runScrape
  have hlen : (pre ++ bad :: post).length = pre.length + post.length + 1 := by
    simp; omega
  have hcount : runScrapeLoop cfg env (pre ++ bad :: post) =
      pre.length + post.length := by
    rw [runScrapeLoop_append, runScrapeLoop_cons,
      runScrapeLoop_all_success cfg env pre hpre,
      runScrapeLoop_all_success cfg env post hpost, hbad]
    simp
  rw [hlen, hcount]

/-- The default data directories of the pipeline constructor. -/
def cfgData : PipelineConfig :=
  { openapiDir := "data/openapi"
    collectionsDir := "data/collections"
    docsDir := "data/docs" }

/-- A document that is neither valid JSON nor valid YAML (an unclosed
flow sequence). -/
def badDoc : String := "not: [valid"

def apiGood1 : ApiInfo :=
  { id := "g1", name := "Good One",
    openapi_url := "https://example.com/good.json",
    github_url := "https://github.com/o/r1" }

def apiGood2 : ApiInfo :=
  { id := "g2", name := "Good Two",
    openapi_url := "https://example.com/good.json",
    github_url := "https://github.com/o/r2" }

def apiBad : ApiInfo :=
  { id := "b1", name := "Bad One",
    openapi_url := "https://example.com/bad.yaml",
    github_url := "https://github.com/o/rb" }

/-- A pipeline environment in which all the tooling works and the bad
URL serves an unparsable document; the parsers agree with the real
libraries on the two documents served. -/
def envBatch : PipelineEnv :=
  { parsers := parsersSwagger
    mkdir := fun _ => .ok ()
    curlFetch := fun url =>
      if url = "https://example.com/good.json" then .ok jsonSwagger
      else .ok badDoc
    execConvert := fun _ _ => .ok ()
    execDocs := fun _ _ => .ok () }

/-- Witness for C1: a three-item batch whose middle item serves an
unparsable spec completes with 3 found, 2 processed, and the bad item's
failure captured in its result. -/
theorem c1_per_item_failure_isolation_witness :
    runScrape cfgData envBatch ([apiGood1] ++ apiBad :: [apiGood2]) =
      { apis_found := 3, apis_processed := 2, status := "completed" } ∧
    (convertAndGenerateDocs cfgData envBatch apiBad).1 =
      { success := false,
        error := some "Downloaded file is not a valid OpenAPI spec (not JSON or YAML)" } := by
  have h := c1_per_item_failure_isolation cfgData envBatch [apiGood1] [apiGood2]
    apiBad badDoc (by decide) (by decide) rfl rfl rfl rfl
  exact ⟨h.2.2, h.2.1⟩

/-- A successful download leaves exactly the spec file as its
artifact. -/
theorem downloadOpenAPISpec_ok_artifacts {cfg : PipelineConfig}
    {env : PipelineEnv} {i u p : String} {a : List String}
    (h : downloadOpenAPISpec cfg env i u = (.ok p, a)) : a = [p] := by
  unfold downloadOpenAPISpec at h
  cases hmk : env.mkdir cfg.openapiDir with
  | error e => simp [hmk] at h
  | ok _ =>
    cases hcf : env.curlFetch u with
    | error e => simp [hmk, hcf] at h
    | ok content =>
      cases hn : normalizeSpec env.parsers content with
      | error e => simp [hmk, hcf, hn] at h
      | ok o =>
        simp [hmk, hcf, hn] at h
        obtain ⟨h1, h2⟩ := h
        subst h1
        exact h2.symm

/-- A successful conversion leaves exactly the collection directory as
its artifact. -/
theorem convertToBruno_ok_artifacts {cfg : PipelineConfig}
    {env : PipelineEnv} {i op p : String} {a : List String}
    (h : convertToBruno cfg env i op = (.ok p, a)) : a = [p] := by
  unfold convertToBruno at h
  cases hmk : env.mkdir cfg.collectionsDir with
  | error e => simp [hmk] at h
  | ok _ =>
    cases hex : env.execConvert op (joinPath cfg.collectionsDir i) with
    | error e => simp [hmk, hex] at h
    | ok _ =>
      simp [hmk, hex] at h
      obtain ⟨h1, h2⟩ := h
      subst h1
      exact h2.symm

/-- C9, amended: once download and conversion succeeded, a failure of
the docs-rendering command is swallowed — the pipeline still returns
`success:true` — while a throw in the docs stage outside that inner
catch (creating the docs directory) is the failure path the claim
describes: the item's result is `success:false` with the error message,
and the artifacts of the earlier stages — the persisted spec file and
the collection directory — are retained, not rolled back. -/
theorem c9_docs_stage_failure (cfg : PipelineConfig) (env : PipelineEnv)
    (api : ApiInfo) (openapiPath collectionPath : String)
    (a1 a2 : List String)
    (hdl : downloadOpenAPISpec cfg env api.id api.openapi_url = (.ok openapiPath, a1))
    (hcv : convertToBruno cfg env api.id openapiPath = (.ok collectionPath, a2)) :
    (env.mkdir cfg.docsDir = .ok () →
      (convertAndGenerateDocs cfg env api).1.success = true) ∧
    (∀ e, env.mkdir cfg.docsDir = .error e →
      (convertAndGenerateDocs cfg env api).1 = { success := false, error := some e } ∧
      (convertAndGenerateDocs cfg env api).2 = [openapiPath, collectionPath]) := by
  have ha1 := downloadOpenAPISpec_ok_artifacts hdl
  have ha2 := convertToBruno_ok_artifacts hcv
  subst ha1
  subst ha2
  constructor
  · intro hmk
    cases hed : env.execDocs collectionPath (joinPath cfg.docsDir api.id) with
    | error e => simp [convertAndGenerateDocs, hdl, hcv, generateDocs, hmk, hed]
    | ok _ => simp [convertAndGenerateDocs, hdl, hcv, generateDocs, hmk, hed]
  · intro e hmk
    constructor
    · simp [convertAndGenerateDocs, hdl, hcv, generateDocs, hmk]
    · simp [convertAndGenerateDocs, hdl, hcv, generateDocs, hmk]

/-- A pipeline environment in which everything works except the docs
renderer, which crashes. -/
def envRenderFail : PipelineEnv :=
  { parsers := parsersSwagger
    mkdir := fun _ => .ok ()
    curlFetch := fun _ => .ok jsonSwagger
    execConvert := fun _ _ => .ok ()
    execDocs := fun _ _ => .error "renderer crashed" }

/-- C9 (as stated) is false: when the documentation-rendering command
fails, the pipeline does not return a `success:false` result — the
failure is logged as a warning and swallowed, and the item comes back
as a success with no error message. -/
theorem c9_render_failure_swallowed :
    envRenderFail.execDocs (joinPath cfgData.collectionsDir apiGood1.id)
        (joinPath cfgData.docsDir apiGood1.id) = .error "renderer crashed" ∧
    (convertAndGenerateDocs cfgData envRenderFail apiGood1).1.success = true ∧
    (convertAndGenerateDocs cfgData envRenderFail apiGood1).1.error = none :=
  ⟨rfl, rfl, rfl⟩

/-- A pipeline environment in which creating the docs directory throws
and everything else works. -/
def envDocsMkdirFail : PipelineEnv :=
  { parsers := parsersSwagger
    mkdir := fun d => if d = "data/docs" then .error "EACCES: cannot create docs dir" else .ok ()
    curlFetch := fun _ => .ok jsonSwagger
    execConvert := fun _ _ => .ok ()
    execDocs := fun _ _ => .ok () }

/-- Witness for the amended C9: a docs-directory failure after two
successful stages yields a recorded failure while the spec file and
collection directory artifacts are retained. -/
theorem c9_docs_stage_failure_witness :
    (convertAndGenerateDocs cfgData envDocsMkdirFail apiGood1).1 =
      { success := false, error := some "EACCES: cannot create docs dir" } ∧
    (convertAndGenerateDocs cfgData envDocsMkdirFail apiGood1).2 =
      ["data/openapi/g1.json", "data/collections/g1"] :=
  (c9_docs_stage_failure cfgData envDocsMkdirFail apiGood1
      "data/openapi/g1.json" "data/collections/g1"
      ["data/openapi/g1.json"] ["data/collections/g1"] rfl rfl).2
    "EACCES: cannot create docs dir" rfl

/-- A concrete raw search hit. -/
def hitDemo : RawHit :=
  { owner := "octo", repoName := "demo", path := "openapi.json" }

/-- Witness for C10 against an environment whose `repos.get` throws:
enrichment fails, the results and the seen-set are left untouched, and
the repo fetch is (re)issued because the key was never indexed. -/
theorem c10_dedup_index_atomic_witness :
    enrichFails envAllSearchesFail optsSinglePattern hitDemo = true ∧
    (processHit envAllSearchesFail optsSinglePattern initialState hitDemo).results =
      initialState.results ∧
    (processHit envAllSearchesFail optsSinglePattern initialState hitDemo).seen =
      initialState.seen ∧
    ∃ rest,
      (processHit envAllSearchesFail optsSinglePattern initialState hitDemo).calls =
        initialState.calls ++ ApiCall.reposGet hitDemo.owner hitDemo.repoName :: rest := by
  have h := c10_dedup_index_atomic envAllSearchesFail optsSinglePattern
    initialState hitDemo
  exact ⟨rfl, (h.1 rfl).1, (h.1 rfl).2, h.2.2 (by simp [initialState])⟩

end OpenapiCatalog
